import Mathlib

/-!
Shallow embedding of the Visit Aggregation Engine of
`doctor_performance_app.py` (schema resolver `find_col`, record classifier
`categorize_group`, the aggregation core `process_file`, and the per-center
store used by the Process button handler).

Modelling conventions:
* Column names, candidate alias lists and service-group labels are `String`s;
  the Python string operations used by the source (`lower`, `strip`,
  `replace(" ", "")`, `split()`, substring `in`) are re-implemented over
  `List Char` so that they evaluate inside the kernel.
* A raw table row is represented after the external parsers have run:
  `pd.to_datetime` yields `Option YM` (`none` = `NaT`), `pd.to_numeric`
  yields `Option ℚ` (`none` = `NaN`), and a missing (`NaN`) cell of a string
  column is `none`.  Real-valued amounts are idealized as `ℚ`.
* `pivot_table` / `groupby` drop rows whose grouping key contains a null
  (pandas default `dropna=True`); this is captured by `keyOf` returning
  `none` for such rows.
-/

/-- Python `str.lower()` restricted to ASCII case mapping. -/
def pyLower (s : String) : String := ⟨s.data.map Char.toLower⟩

/-- Python `str.strip()`: drop whitespace from both ends. -/
def pyStrip (s : String) : String :=
  ⟨((s.data.dropWhile Char.isWhitespace).reverse.dropWhile Char.isWhitespace).reverse⟩

/-- Python `s.replace(" ", "")`: remove every space character. -/
def dropSpaces (s : String) : String := ⟨s.data.filter (fun c => decide (c ≠ ' '))⟩

/-- Whether `pat` is a prefix of `l` (helper for the substring test). -/
def listPre : List Char → List Char → Bool
  | [], _ => true
  | _ :: _, [] => false
  | a :: as, b :: bs => decide (a = b) && listPre as bs

/-- Whether `pat` occurs inside `l`: Python `pat in s`. -/
def listOccurs (pat : List Char) : List Char → Bool
  | [] => pat.isEmpty
  | a :: t => listPre pat (a :: t) || listOccurs pat t

/-- Python substring containment `pat in s`. -/
def strHas (pat s : String) : Bool := listOccurs pat.data s.data

/-- Helper for Python `str.split()`: split on whitespace runs, dropping
empty fields; `cur` is the word read so far, reversed. -/
def splitWSAux : List Char → List Char → List (List Char)
  | [], cur => if cur.isEmpty then [] else [cur.reverse]
  | c :: cs, cur =>
    if Char.isWhitespace c then
      if cur.isEmpty then splitWSAux cs [] else cur.reverse :: splitWSAux cs []
    else splitWSAux cs (c :: cur)

/-- Joining words with single spaces: Python `" ".join(words)`. -/
def joinSpace : List (List Char) → List Char
  | [] => []
  | [w] => w
  | w :: ws => w ++ ' ' :: joinSpace ws

/-- One column name as rewritten by `normalize_cols`:
`" ".join(str(c).strip().split())` (trim and collapse inner whitespace). -/
def normalizeName (c : String) : String := ⟨joinSpace (splitWSAux c.data [])⟩

/-- The token set of the `find_col` fallback heuristic (line 55 of the
source). -/
def docTokens : List String := ["docname", "doc", "doctor", "provider", "physician"]

/-- Exact alias hit of `find_col`'s first loop: the column's
`lower().strip()` form equals some candidate's `lower().strip()` form. -/
def exactHit (cands : List String) (c : String) : Bool :=
  cands.any (fun w => pyStrip (pyLower w) == pyStrip (pyLower c))

/-- Heuristic hit of `find_col`'s second loop: the column's
`lower().replace(" ", "")` form contains one of `docTokens`. -/
def heurHit (c : String) : Bool :=
  docTokens.any (fun tok => strHas tok (dropSpaces (pyLower c)))

/-- `find_col(df, *candidates)`: first column matching an alias exactly
(case-insensitively), else first column hit by the doctor-token substring
heuristic, else `None`.  The heuristic loop runs whatever the candidate
list is. -/
def find_col (cols : List String) (cands : List String) : Option String :=
  match cols.find? (exactHit cands) with
  | some c => some c
  | none => cols.find? heurHit

/-- Aliases accepted for the visit-identifier column. -/
def visitAliases : List String := ["VisitNo", "Visit No", "Visit_ID", "Visit Id"]

/-- Aliases accepted for the visit-date column. -/
def dateAliases : List String := ["VisitDate", "Visit Date", "Date"]

/-- Aliases accepted for the doctor-name column. -/
def docAliases : List String :=
  ["DocName", "Doc Name", "Doctor", "Doctor Name", "Provider", "Provider Name"]

/-- Aliases accepted for the item-group column. -/
def groupAliases : List String := ["Item Group", "ItemGroup", "Group"]

/-- Aliases accepted for the amount column (`Net Amount` preferred). -/
def amtAliases : List String :=
  ["Net Amount", "NetAmount", "ActivityIns", "Activity Ins", "Amount"]

/-- The five canonical roles with their error labels and alias lists, in the
order of the `missing` list comprehension of `process_file`. -/
def roleAliases : List (String × List String) :=
  [("VisitNo", visitAliases), ("VisitDate", dateAliases), ("DocName", docAliases),
   ("Item Group", groupAliases), ("Amount (Net/ActivityIns)", amtAliases)]

/-- Labels of the roles `find_col` left unresolved, in declaration order
(the payload of the `ValueError` raised by `process_file`). -/
def missingRoles (cols : List String) : List String :=
  (roleAliases.filter (fun p => (find_col cols p.2).isNone)).map Prod.fst

/-- Keyword list `CONSULTATION_KEYS` of the source, verbatim. -/
def CONSULTATION_KEYS : List String :=
  ["consult", "opd", "follow up", "follow-up", "revisit", "tele", "teleconsult"]

/-- Keyword list `MEDICINE_KEYS` of the source, verbatim. -/
def MEDICINE_KEYS : List String :=
  ["medicine", "medicin", "drug", "pharmacy", "rx", "tablet", "capsule",
   "syrup", "drops", "cream", "ointment", "spray", "suppository"]

/-- Keyword list `PROCEDURE_KEYS` of the source, verbatim. -/
def PROCEDURE_KEYS : List String :=
  ["procedure", "proc", "injection", "inj", "iv", "infusion", "nebul",
   "ecg", "dressing", "suturing", "removal", "x-ray", "xray", "ultrasound",
   "usg", "physio", "cast", "lab sample", "venipuncture", "nebulization",
   "ivf", "drip", "echo", "spirometry", "vaccin", "vaccine", "bandage"]

/-- Python `any(k in s for k in keys)`. -/
def anyKeyHit (keys : List String) (s : String) : Bool :=
  keys.any (fun k => strHas k s)

/-- `categorize_group`: `None`/`NaN` label gives `Other`; otherwise the
stripped, lowercased label is tested against the three keyword lists in
fixed order, first match wins, default `Other`. -/
def categorize_group : Option String → String
  | none => "Other"
  | some x =>
    let s := pyLower (pyStrip x)
    if anyKeyHit CONSULTATION_KEYS s then "Consultation"
    else if anyKeyHit MEDICINE_KEYS s then "Medicines"
    else if anyKeyHit PROCEDURE_KEYS s then "Procedure"
    else "Other"

/-- `calendar.month_abbr` as a list indexed 0..12. -/
def monthAbbrList : List String :=
  ["", "Jan", "Feb", "Mar", "Apr", "May", "Jun", "Jul", "Aug", "Sep", "Oct", "Nov", "Dec"]

/-- `safe_month_label`: three-letter abbreviation for 1..12, else empty. -/
def safe_month_label (n : Nat) : String :=
  if 1 ≤ n ∧ n ≤ 12 then monthAbbrList.getD n "" else ""

/-- Rounding to the nearest integer with ties to even, the semantics of the
pandas/numpy `Series.round(0)` applied by `process_file` (idealizing the
float arithmetic over ℚ). -/
def rqHalfEven (q : ℚ) : Int :=
  if q - ⌊q⌋ < 1/2 then ⌊q⌋
  else if 1/2 < q - ⌊q⌋ then ⌊q⌋ + 1
  else if ⌊q⌋ % 2 = 0 then ⌊q⌋ else ⌊q⌋ + 1

/-- Modelled from the spec: standard round-half-up rounding, the rule §8 of
the spec claims for `averagePerVisit`; kept separate from `rqHalfEven`
(which embeds what the code does) so the two can be compared. -/
def specRoundHalfUp (q : ℚ) : Int := ⌊q + 1/2⌋

/-- A parsed calendar year/month, the non-`NaT` result of
`pd.to_datetime` followed by `.dt.year` / `.dt.month`. -/
structure YM where
  year : Int
  month : Nat
deriving DecidableEq

/-- One raw table row, seen through the resolved column binding, with the
external parsers already applied: `dateParsed` is the `pd.to_datetime`
result (`none` = `NaT`), `amountParsed` the `pd.to_numeric` result
(`none` = `NaN`), and `none` in a string cell is a missing (`NaN`) cell. -/
structure RawRow where
  visitCell : Option String
  dateParsed : Option YM
  docCell : Option String
  groupCell : Option String
  amountParsed : Option ℚ
deriving DecidableEq

/-- A grouping key of the summary grain: doctor, year, month number. -/
structure Key where
  doc : String
  year : Int
  month : Nat
deriving DecidableEq

/-- One output row of `process_file`. -/
structure SummaryRow where
  docName : String
  year : Int
  monthNum : Nat
  monthLabel : String
  consultation : ℚ
  medicines : ℚ
  procedure : ℚ
  other : ℚ
  total : ℚ
  visits : Nat
  avg : Int
deriving DecidableEq

/-- Normalized amount of a row: `pd.to_numeric(..., errors="coerce").fillna(0)`. -/
def normAmount (r : RawRow) : ℚ := r.amountParsed.getD 0

/-- Visit identifier as used for the distinct count:
`astype(str).str.strip()`; a `NaN` cell stringifies to `"nan"`. -/
def visitStr (r : RawRow) : String :=
  pyStrip (match r.visitCell with | none => "nan" | some s => s)

/-- Grouping key of a row, or `none` when the row is excluded from the
grain: an unparseable date (the `ok` mask) or a null doctor cell (dropped
by `pivot_table` / `groupby` with their default `dropna=True`). -/
def keyOf (r : RawRow) : Option Key :=
  match r.docCell, r.dateParsed with
  | some d, some ym => some ⟨d, ym.year, ym.month⟩
  | _, _ => none

/-- Code-point comparison of char lists, Python string `<`. -/
def strLtB : List Char → List Char → Bool
  | [], [] => false
  | [], _ :: _ => true
  | _ :: _, [] => false
  | a :: as, b :: bs => if a = b then strLtB as bs else decide (a.toNat < b.toNat)

/-- Ascending key order of the final `sort_values([doc, Year, MonthNum])`. -/
def keyLE (a b : Key) : Bool :=
  if a.doc = b.doc then
    if a.year = b.year then decide (a.month ≤ b.month)
    else decide (a.year < b.year)
  else strLtB a.doc.data b.doc.data

/-- Insert into a sorted list (helper for the stable sort). -/
def insSorted (le : Key → Key → Bool) (a : Key) : List Key → List Key
  | [] => [a]
  | b :: bs => if le a b then a :: b :: bs else b :: insSorted le a bs

/-- Stable insertion sort used to model the sorted output order. -/
def sortKeys (le : Key → Key → Bool) : List Key → List Key
  | [] => []
  | a :: as => insSorted le a (sortKeys le as)

/-- The distinct grouping keys present among the rows, in ascending order
(the index of the pivot table / the final sort). -/
def keysOf (rows : List RawRow) : List Key :=
  sortKeys keyLE ((rows.filterMap keyOf).dedup)

/-- Bucket subtotal of the pivot table: sum of the normalized amounts of
every row of the grain carrying bucket `b` (no deduplication by visit). -/
def bucketSum (rows : List RawRow) (k : Key) (b : String) : ℚ :=
  ((rows.filter (fun r => decide (keyOf r = some k) &&
      decide (categorize_group r.groupCell = b))).map normAmount).sum

/-- Distinct-visit count of a grain: `groupby(...)[visit_col].nunique()`
over the trimmed stringified visit identifiers. -/
def visitsCount (rows : List RawRow) (k : Key) : Nat :=
  (((rows.filter (fun r => decide (keyOf r = some k))).map visitStr).dedup).length

/-- The summary row assembled for one grouping key: the four bucket
subtotals (0 when no row matches), their sum as `Total`, the distinct
visit count, and `Avg_per_Visit` by the guarded rounded division
`(Total / Visits.replace(0, NA)).round(0).fillna(0).astype(int)`. -/
def mkRow (rows : List RawRow) (k : Key) : SummaryRow :=
  let c := bucketSum rows k "Consultation"
  let m := bucketSum rows k "Medicines"
  let p := bucketSum rows k "Procedure"
  let o := bucketSum rows k "Other"
  let v := visitsCount rows k
  let t := c + m + p + o
  { docName := k.doc, year := k.year, monthNum := k.month,
    monthLabel := safe_month_label k.month,
    consultation := c, medicines := m, procedure := p, other := o,
    total := t, visits := v,
    avg := if v = 0 then 0 else rqHalfEven (t / (v : ℚ)) }

/-- The successful aggregation result of `process_file`: one summary row
per grouping key. -/
def processOk (rows : List RawRow) : List SummaryRow :=
  (keysOf rows).map (mkRow rows)

/-- The invalid-date diagnostic `bad_dates = df["MonthNum"].isna().sum()`. -/
def badDates (rows : List RawRow) : Nat :=
  rows.countP (fun r => r.dateParsed.isNone)

/-- `process_file` with its schema gate: resolve the five roles on the
normalized column names; if any is unresolved raise (return the list of
missing role labels, the payload of the `ValueError`), else aggregate. -/
def processFile (cols : List String) (rows : List RawRow) :
    Except (List String) (List SummaryRow) :=
  let missing := missingRoles (cols.map normalizeName)
  if missing.isEmpty then Except.ok (processOk rows) else Except.error missing

/-- The per-center store: the in-memory `st.session_state["center_data"]`
slot and the durable `processed/<center>.csv` copy, per center key. -/
structure CenterStore where
  mem : String → Option (List SummaryRow)
  disk : String → Option (List SummaryRow)

/-- The Process button handler: run `process_file` inside `try`; on success
write the result to the session slot and save it to disk, on an exception
leave the store untouched and surface the error. -/
def processClick (st : CenterStore) (center : String)
    (cols : List String) (rows : List RawRow) :
    CenterStore × Option (List String) :=
  match processFile cols rows with
  | Except.ok res =>
    (⟨fun k => if k = center then some res else st.mem k,
      fun k => if k = center then some res else st.disk k⟩, none)
  | Except.error e => (st, some e)

/-! Concrete inputs used by witnesses and counterexamples. -/

/-- A dated consultation line of 2, visit V1, for Dr A in January 2024. -/
def rowC2a : RawRow := ⟨some "V1", some ⟨2024, 1⟩, some "Dr A", some "Consultation", some 2⟩

/-- A dated consultation line of 3, visit V2, same doctor and month. -/
def rowC2b : RawRow := ⟨some "V2", some ⟨2024, 1⟩, some "Dr A", some "Consultation", some 3⟩

/-- The January-2024 grouping key of Dr A. -/
def keyA : Key := ⟨"Dr A", 2024, 1⟩

/-- A dated row whose doctor cell is null (a missing cell). -/
def rowNullDoc : RawRow := ⟨some "V1", some ⟨2024, 1⟩, none, some "Consultation", some 100⟩

/-- A dated row whose doctor cell holds the empty string. -/
def rowEmptyDoc : RawRow := ⟨some "V1", some ⟨2024, 1⟩, some "", some "Consultation", some 100⟩

/-- A dated row with a parseable negative amount. -/
def rowNegAmt : RawRow := ⟨some "V1", some ⟨2024, 1⟩, some "Dr A", some "Consultation", some (-50)⟩

/-- A dated row whose amount cell failed numeric parsing. -/
def rowNoAmt : RawRow := ⟨some "V1", some ⟨2024, 1⟩, some "Dr A", some "Consultation", none⟩

/-- First line item of visit V1: a consultation of 100. -/
def rowC6a : RawRow := ⟨some "V1", some ⟨2024, 1⟩, some "Dr A", some "Consultation", some 100⟩

/-- Second line item of the same visit V1: a tablet of 50. -/
def rowC6b : RawRow := ⟨some "V1", some ⟨2024, 1⟩, some "Dr A", some "Tablet", some 50⟩

/-- A row whose `VisitDate` failed to parse. -/
def rowBadDate : RawRow := ⟨some "V9", none, some "Dr A", some "Consultation", some 10⟩

/-- An empty center store: no tenant has data in memory or on disk. -/
def st0 : CenterStore := ⟨fun _ => none, fun _ => none⟩

/-! Helper lemmas about the aggregation core. -/

theorem mem_insSorted {le : Key → Key → Bool} {a x : Key} {l : List Key} :
    x ∈ insSorted le a l ↔ x = a ∨ x ∈ l := by
  induction l with
  | nil => simp [insSorted]
  | cons b bs ih =>
    by_cases h : le a b = true
    · simp [insSorted, h]
    · simp only [insSorted, if_neg h, List.mem_cons, ih]
      tauto

theorem mem_sortKeys {le : Key → Key → Bool} {x : Key} {l : List Key} :
    x ∈ sortKeys le l ↔ x ∈ l := by
  induction l with
  | nil => simp [sortKeys]
  | cons a as ih => simp [sortKeys, mem_insSorted, ih]

theorem mem_keysOf {k : Key} {rows : List RawRow} :
    k ∈ keysOf rows ↔ ∃ r ∈ rows, keyOf r = some k := by
  simp [keysOf, mem_sortKeys, List.mem_dedup, List.mem_filterMap]

theorem mem_processOk {s : SummaryRow} {rows : List RawRow} :
    s ∈ processOk rows ↔ ∃ k ∈ keysOf rows, mkRow rows k = s := by
  simp [processOk, List.mem_map]

theorem keyOf_none_of_date_none {r : RawRow} (h : r.dateParsed = none) :
    keyOf r = none := by
  cases hd : r.docCell <;> simp [keyOf, hd, h]

theorem keyOf_none_of_doc_none {r : RawRow} (h : r.docCell = none) :
    keyOf r = none := by
  cases hd : r.dateParsed <;> simp [keyOf, hd, h]

theorem bucketSum_cons_none {r : RawRow} (h : keyOf r = none)
    (rows : List RawRow) (k : Key) (b : String) :
    bucketSum (r :: rows) k b = bucketSum rows k b := by
  simp [bucketSum, List.filter_cons, h]

theorem visitsCount_cons_none {r : RawRow} (h : keyOf r = none)
    (rows : List RawRow) (k : Key) :
    visitsCount (r :: rows) k = visitsCount rows k := by
  simp [visitsCount, List.filter_cons, h]

theorem keysOf_cons_none {r : RawRow} (h : keyOf r = none) (rows : List RawRow) :
    keysOf (r :: rows) = keysOf rows := by
  simp [keysOf, List.filterMap_cons_none h]

theorem mkRow_cons_none {r : RawRow} (h : keyOf r = none)
    (rows : List RawRow) (k : Key) :
    mkRow (r :: rows) k = mkRow rows k := by
  simp [mkRow, bucketSum_cons_none h, visitsCount_cons_none h]

theorem processOk_cons_none {r : RawRow} (h : keyOf r = none) (rows : List RawRow) :
    processOk (r :: rows) = processOk rows := by
  unfold processOk
  rw [keysOf_cons_none h]
  exact List.map_congr_left (fun k _ => mkRow_cons_none h rows k)

theorem mem_processOk_of_row {rows : List RawRow} {r : RawRow} {d : String} {ym : YM}
    (hr : r ∈ rows) (hdoc : r.docCell = some d) (hdate : r.dateParsed = some ym) :
    mkRow rows ⟨d, ym.year, ym.month⟩ ∈ processOk rows := by
  refine List.mem_map_of_mem _ (mem_keysOf.mpr ⟨r, hr, ?_⟩)
  simp [keyOf, hdoc, hdate]

theorem bucketSum_append_hit {r : RawRow} {k : Key} (h : keyOf r = some k)
    (rows : List RawRow) :
    bucketSum (rows ++ [r]) k (categorize_group r.groupCell)
      = bucketSum rows k (categorize_group r.groupCell) + normAmount r := by
  simp [bucketSum, List.filter_append, List.filter_cons, h]

theorem bucketSum_append_ne {r : RawRow} {k : Key} {b : String}
    (h : b ≠ categorize_group r.groupCell) (rows : List RawRow) :
    bucketSum (rows ++ [r]) k b = bucketSum rows k b := by
  have hcond : ¬ (keyOf r = some k ∧ categorize_group r.groupCell = b) :=
    fun hc => h hc.2.symm
  simp [bucketSum, List.filter_append, List.filter_cons, hcond]

theorem dedup_length_append_of_mem {l : List String} {a : String} (h : a ∈ l) :
    ((l ++ [a]).dedup).length = l.dedup.length := by
  rw [← List.card_toFinset, ← List.card_toFinset]
  congr 1
  rw [List.toFinset_append]
  simp only [List.toFinset_cons, List.toFinset_nil, insert_emptyc_eq]
  exact Finset.union_eq_left.mpr
    (Finset.singleton_subset_iff.mpr (List.mem_toFinset.mpr h))

theorem visitsCount_append_mem {r : RawRow} {k : Key} (h : keyOf r = some k)
    {rows : List RawRow}
    (hv : visitStr r ∈ (rows.filter (fun x => decide (keyOf x = some k))).map visitStr) :
    visitsCount (rows ++ [r]) k = visitsCount rows k := by
  simp only [visitsCount, List.filter_append, List.filter_cons, h,
    decide_eq_true_eq, if_true, List.filter_nil, List.map_append, List.map_cons,
    List.map_nil]
  exact dedup_length_append_of_mem hv

theorem categorize_group_mem_four (x : Option String) :
    categorize_group x = "Consultation" ∨ categorize_group x = "Medicines" ∨
    categorize_group x = "Procedure" ∨ categorize_group x = "Other" := by
  cases x with
  | none => simp [categorize_group]
  | some s =>
    simp only [categorize_group]
    split_ifs <;> simp

theorem mkRow_docName (rows : List RawRow) (k : Key) : (mkRow rows k).docName = k.doc := rfl

theorem mkRow_year (rows : List RawRow) (k : Key) : (mkRow rows k).year = k.year := rfl

theorem mkRow_monthNum (rows : List RawRow) (k : Key) : (mkRow rows k).monthNum = k.month := rfl

theorem mkRow_consultation (rows : List RawRow) (k : Key) :
    (mkRow rows k).consultation = bucketSum rows k "Consultation" := rfl

theorem mkRow_medicines (rows : List RawRow) (k : Key) :
    (mkRow rows k).medicines = bucketSum rows k "Medicines" := rfl

theorem mkRow_procedure (rows : List RawRow) (k : Key) :
    (mkRow rows k).procedure = bucketSum rows k "Procedure" := rfl

theorem mkRow_other (rows : List RawRow) (k : Key) :
    (mkRow rows k).other = bucketSum rows k "Other" := rfl

theorem mkRow_visits (rows : List RawRow) (k : Key) :
    (mkRow rows k).visits = visitsCount rows k := rfl

theorem mkRow_total (rows : List RawRow) (k : Key) :
    (mkRow rows k).total = bucketSum rows k "Consultation" + bucketSum rows k "Medicines"
      + bucketSum rows k "Procedure" + bucketSum rows k "Other" := rfl

theorem mkRow_avg (rows : List RawRow) (k : Key) :
    (mkRow rows k).avg = if visitsCount rows k = 0 then 0
      else rqHalfEven ((mkRow rows k).total / (visitsCount rows k : ℚ)) := rfl

/-! Claim theorems. -/

/-- Claim C1 is false on the code: the doctor-token substring heuristic of
`find_col` runs for every role.  Counterexample: with the single column
`Doctor`, no accepted `VisitId` alias matches exactly, yet the role binds
to `Doctor` instead of resolving to unbound. -/
theorem c1_heuristic_counterexample :
    (∀ c ∈ ["Doctor"], exactHit visitAliases c = false) ∧
    find_col ["Doctor"] visitAliases = some "Doctor" := by decide

/-- Claim C1 (amended): the substring fallback heuristic applies to every
role, not only DoctorName: for any candidate alias list, `find_col` leaves
the role unbound exactly when no column matches an alias exactly and,
additionally, no column's lowercased space-stripped name contains one of
the doctor tokens. -/
theorem c1_fallback_every_role (cols cands : List String) :
    find_col cols cands = none ↔
      (∀ c ∈ cols, exactHit cands c = false) ∧ (∀ c ∈ cols, heurHit c = false) := by
  unfold find_col
  cases hf : cols.find? (exactHit cands) with
  | some c =>
    simp only [hf]
    constructor
    · intro h; simp at h
    · rintro ⟨h1, _⟩
      have hc := List.mem_of_find?_eq_some hf
      have ht := List.find?_some hf
      rw [h1 c hc] at ht
      cases ht
  | none =>
    simp only [hf]
    rw [List.find?_eq_none]
    have hex : ∀ c ∈ cols, exactHit cands c = false := by
      intro c hc
      simpa using List.find?_eq_none.mp hf c hc
    constructor
    · intro h
      exact ⟨hex, fun c hc => by simpa using h c hc⟩
    · rintro ⟨_, h2⟩ c hc
      simp [h2 c hc]

/-- Claim C9: the classifier sends a null label to Other and otherwise
tests the lowercased, trimmed label against the Consultation, Medicines
and Procedure keyword lists in that fixed order, returning on the first
hit and Other when nothing hits; so a label hitting both a Consultation
and a Medicines keyword classifies as Consultation. -/
theorem c9_classifier_first_match :
    categorize_group none = "Other" ∧
    (∀ s : String, anyKeyHit CONSULTATION_KEYS (pyLower (pyStrip s)) = true →
      categorize_group (some s) = "Consultation") ∧
    (∀ s : String, anyKeyHit CONSULTATION_KEYS (pyLower (pyStrip s)) = false →
      anyKeyHit MEDICINE_KEYS (pyLower (pyStrip s)) = true →
      categorize_group (some s) = "Medicines") ∧
    (∀ s : String, anyKeyHit CONSULTATION_KEYS (pyLower (pyStrip s)) = false →
      anyKeyHit MEDICINE_KEYS (pyLower (pyStrip s)) = false →
      anyKeyHit PROCEDURE_KEYS (pyLower (pyStrip s)) = true →
      categorize_group (some s) = "Procedure") ∧
    (∀ s : String, anyKeyHit CONSULTATION_KEYS (pyLower (pyStrip s)) = false →
      anyKeyHit MEDICINE_KEYS (pyLower (pyStrip s)) = false →
      anyKeyHit PROCEDURE_KEYS (pyLower (pyStrip s)) = false →
      categorize_group (some s) = "Other") := by
  refine ⟨rfl, ?_, ?_, ?_, ?_⟩
  · intro s h; simp [categorize_group, h]
  · intro s h1 h2; simp [categorize_group, h1, h2]
  · intro s h1 h2 h3; simp [categorize_group, h1, h2, h3]
  · intro s h1 h2 h3; simp [categorize_group, h1, h2, h3]

/-- Witness for C9 at a label that carries both a Consultation keyword
(`opd`) and a Medicines keyword (`tablet`): it classifies as
Consultation. -/
theorem c9_classifier_witness :
    anyKeyHit CONSULTATION_KEYS (pyLower (pyStrip "OPD Tablet")) = true ∧
    anyKeyHit MEDICINE_KEYS (pyLower (pyStrip "OPD Tablet")) = true ∧
    categorize_group (some "OPD Tablet") = "Consultation" :=
  ⟨by decide, by decide, c9_classifier_first_match.2.1 "OPD Tablet" (by decide)⟩

/-- Claim C7: a row whose date fails to parse changes no summary row (it is
excluded from every grain), and the invalid-date diagnostic counts exactly
the rows whose date parse failed. -/
theorem c7_invalid_date_excluded_counted (rows : List RawRow) (r : RawRow)
    (h : r.dateParsed = none) :
    processOk (r :: rows) = processOk rows ∧
    badDates (r :: rows) = badDates rows + 1 ∧
    badDates rows = (rows.filter (fun x => x.dateParsed.isNone)).length := by
  refine ⟨processOk_cons_none (keyOf_none_of_date_none h) rows, ?_,
    List.countP_eq_length_filter _ _⟩
  simp [badDates, List.countP_cons, h]

/-- Witness for C7 at a concrete unparseable-date row. -/
theorem c7_invalid_date_witness :
    processOk [rowBadDate] = processOk [] ∧ badDates [rowBadDate] = badDates [] + 1 :=
  ⟨(c7_invalid_date_excluded_counted [] rowBadDate rfl).1,
   (c7_invalid_date_excluded_counted [] rowBadDate rfl).2.1⟩

/-- Claim C3 is false on the code: a dated row whose doctor cell is null is
dropped from the summary entirely (pandas grouping drops null keys), not
grouped under an empty-string key. -/
theorem c3_null_doctor_counterexample :
    rowNullDoc.dateParsed = some ⟨2024, 1⟩ ∧ processOk [rowNullDoc] = [] :=
  ⟨rfl, rfl⟩

/-- Claim C3 (amended): a dated row whose doctor cell holds a string -
including the empty string - is included in the summary, grouped under
that exact untrimmed string; a dated row whose doctor cell is null is
excluded from the summary entirely. -/
theorem c3_doctor_string_grouping (rows : List RawRow) (r : RawRow) (d : String)
    (ym : YM) (hr : r ∈ rows) (hdoc : r.docCell = some d)
    (hdate : r.dateParsed = some ym) :
    (∃ s ∈ processOk rows, s.docName = d ∧ s.year = ym.year ∧ s.monthNum = ym.month) ∧
    (∀ (x : RawRow) (t : List RawRow), x.docCell = none →
      processOk (x :: t) = processOk t) := by
  constructor
  · exact ⟨mkRow rows ⟨d, ym.year, ym.month⟩,
      mem_processOk_of_row hr hdoc hdate, rfl, rfl, rfl⟩
  · intro x t hx
    exact processOk_cons_none (keyOf_none_of_doc_none hx) t

/-- Witness for the amended C3 at a row whose doctor cell is the empty
string. -/
theorem c3_doctor_string_witness :
    ∃ s ∈ processOk [rowEmptyDoc], s.docName = "" ∧ s.year = 2024 ∧ s.monthNum = 1 :=
  (c3_doctor_string_grouping [rowEmptyDoc] rowEmptyDoc "" ⟨2024, 1⟩
    (List.mem_singleton.mpr rfl) rfl rfl).1

/-- Claim C10: every produced summary row has a visit count of at least
one, so the zero branch of the average guard is unreachable for produced
rows. -/
theorem c10_visit_count_positive (rows : List RawRow) (s : SummaryRow)
    (hs : s ∈ processOk rows) : 1 ≤ s.visits := by
  rcases mem_processOk.mp hs with ⟨k, hk, rfl⟩
  rcases mem_keysOf.mp hk with ⟨r, hr, hkr⟩
  rw [mkRow_visits]
  have hmem : visitStr r ∈ (rows.filter (fun x => decide (keyOf x = some k))).map visitStr :=
    List.mem_map_of_mem _ (List.mem_filter.mpr ⟨hr, by simp [hkr]⟩)
  have hd : visitStr r ∈ ((rows.filter (fun x => decide (keyOf x = some k))).map visitStr).dedup :=
    List.mem_dedup.mpr hmem
  have := List.length_pos.mpr (List.ne_nil_of_mem hd)
  unfold visitsCount
  omega

/-- Witness for C10 at a one-row table. -/
theorem c10_visit_count_witness : 1 ≤ (mkRow [rowC6a] keyA).visits :=
  c10_visit_count_positive [rowC6a] (mkRow [rowC6a] keyA)
    (List.mem_map_of_mem _ (by decide))

/-- Claim C5: every produced summary row's total equals the sum of its
four bucket subtotals, each subtotal field carries the bucket's pivot sum,
and a bucket with no matching row in the grain gets the value 0 (the
bucket is never absent). -/
theorem c5_total_decomposition (rows : List RawRow) (s : SummaryRow)
    (hs : s ∈ processOk rows) :
    s.total = s.consultation + s.medicines + s.procedure + s.other ∧
    s.consultation = bucketSum rows ⟨s.docName, s.year, s.monthNum⟩ "Consultation" ∧
    s.medicines = bucketSum rows ⟨s.docName, s.year, s.monthNum⟩ "Medicines" ∧
    s.procedure = bucketSum rows ⟨s.docName, s.year, s.monthNum⟩ "Procedure" ∧
    s.other = bucketSum rows ⟨s.docName, s.year, s.monthNum⟩ "Other" ∧
    (∀ b : String,
      (∀ r ∈ rows, ¬(keyOf r = some ⟨s.docName, s.year, s.monthNum⟩ ∧
        categorize_group r.groupCell = b)) →
      bucketSum rows ⟨s.docName, s.year, s.monthNum⟩ b = 0) := by
  rcases mem_processOk.mp hs with ⟨k, hk, rfl⟩
  have hkey : (⟨(mkRow rows k).docName, (mkRow rows k).year, (mkRow rows k).monthNum⟩ : Key) = k := rfl
  rw [hkey]
  refine ⟨rfl, rfl, rfl, rfl, rfl, ?_⟩
  intro b hb
  have hnil : rows.filter (fun r => decide (keyOf r = some k) &&
      decide (categorize_group r.groupCell = b)) = [] := by
    refine List.filter_eq_nil_iff.mpr ?_
    intro a ha
    simp only [Bool.and_eq_true, decide_eq_true_eq, not_and]
    intro h1 h2
    exact hb a ha ⟨h1, h2⟩
  rw [bucketSum, hnil]
  rfl

/-- Witness for C5 at a two-line table for one grain. -/
theorem c5_total_witness :
    (mkRow [rowC2a, rowC2b] keyA).total = (mkRow [rowC2a, rowC2b] keyA).consultation
      + (mkRow [rowC2a, rowC2b] keyA).medicines + (mkRow [rowC2a, rowC2b] keyA).procedure
      + (mkRow [rowC2a, rowC2b] keyA).other :=
  (c5_total_decomposition [rowC2a, rowC2b] (mkRow [rowC2a, rowC2b] keyA)
    (List.mem_map_of_mem _ (by decide))).1

/-- Claim C2 is false on the code: the average is rounded with numpy's
ties-to-even rule, not round-half-up.  With total 5 over 2 distinct
visits the code produces 2, while round-half-up of 5/2 is 3. -/
theorem c2_rounding_counterexample :
    (processOk [rowC2a, rowC2b]).map (fun s => (s.total, s.visits, s.avg)) = [(5, 2, 2)] ∧
    specRoundHalfUp ((5 : ℚ) / 2) = 3 := by
  constructor
  · have hks : keysOf [rowC2a, rowC2b] = [keyA] := by decide
    simp only [processOk, hks, List.map_cons, List.map_nil]
    have ht : (mkRow [rowC2a, rowC2b] keyA).total = 5 := by
      rw [mkRow_total,
        show bucketSum [rowC2a, rowC2b] keyA "Consultation" = [(2 : ℚ), 3].sum from rfl,
        show bucketSum [rowC2a, rowC2b] keyA "Medicines" = List.sum ([] : List ℚ) from rfl,
        show bucketSum [rowC2a, rowC2b] keyA "Procedure" = List.sum ([] : List ℚ) from rfl,
        show bucketSum [rowC2a, rowC2b] keyA "Other" = List.sum ([] : List ℚ) from rfl]
      simp [List.sum_cons, List.sum_nil]
      norm_num
    have hv : (mkRow [rowC2a, rowC2b] keyA).visits = 2 := by decide
    have hvc : visitsCount [rowC2a, rowC2b] keyA = 2 := by decide
    have ha : (mkRow [rowC2a, rowC2b] keyA).avg = 2 := by
      rw [mkRow_avg, if_neg (by decide), ht, hvc]
      rw [show ((2 : Nat) : ℚ) = 2 by norm_num]
      rw [rqHalfEven]
      norm_num
    rw [ht, hv, ha]
  · rw [specRoundHalfUp]
    norm_num

/-- Claim C2 (amended): for every produced summary row, a zero visit count
gives average 0, and otherwise the average is total over visits rounded to
the nearest integer with ties to even (numpy rounding), not half-up. -/
theorem c2_avg_guarded_half_even (rows : List RawRow) (s : SummaryRow)
    (hs : s ∈ processOk rows) :
    (s.visits = 0 → s.avg = 0) ∧
    (s.visits ≠ 0 → s.avg = rqHalfEven (s.total / (s.visits : ℚ))) := by
  rcases mem_processOk.mp hs with ⟨k, hk, rfl⟩
  rw [mkRow_visits, mkRow_avg]
  constructor
  · intro h0
    rw [if_pos h0]
  · intro hne
    rw [if_neg hne]

/-- Witness for the amended C2 at a concrete two-visit grain. -/
theorem c2_avg_witness :
    (mkRow [rowC2a, rowC2b] keyA).avg =
      rqHalfEven ((mkRow [rowC2a, rowC2b] keyA).total /
        ((mkRow [rowC2a, rowC2b] keyA).visits : ℚ)) :=
  (c2_avg_guarded_half_even [rowC2a, rowC2b] (mkRow [rowC2a, rowC2b] keyA)
    (List.mem_map_of_mem _ (by decide))).2 (by decide)

/-- Claim C6: bucket subtotals sum all line items of the grain without
deduplicating by visit, while the visit count is over distinct trimmed
visit identifiers: appending a second line item of an already-counted
visit raises its bucket subtotal and the total by the item's amount,
leaves every other bucket unchanged, and leaves the visit count
unchanged. -/
theorem c6_line_item_aggregation (rows : List RawRow) (r : RawRow) (k : Key)
    (hk : keyOf r = some k)
    (hv : visitStr r ∈ (rows.filter (fun x => decide (keyOf x = some k))).map visitStr) :
    bucketSum (rows ++ [r]) k (categorize_group r.groupCell)
      = bucketSum rows k (categorize_group r.groupCell) + normAmount r ∧
    (mkRow (rows ++ [r]) k).total = (mkRow rows k).total + normAmount r ∧
    (mkRow (rows ++ [r]) k).visits = (mkRow rows k).visits ∧
    (∀ b : String, b ≠ categorize_group r.groupCell →
      bucketSum (rows ++ [r]) k b = bucketSum rows k b) := by
  refine ⟨bucketSum_append_hit hk rows, ?_, ?_, fun b hb => bucketSum_append_ne hb rows⟩
  · rw [mkRow_total, mkRow_total]
    rcases categorize_group_mem_four r.groupCell with h4 | h4 | h4 | h4 <;>
    · have hhit := bucketSum_append_hit hk rows
      rw [h4] at hhit
      rw [hhit]
      rw [bucketSum_append_ne (by rw [h4]; decide) rows,
        bucketSum_append_ne (by rw [h4]; decide) rows,
        bucketSum_append_ne (by rw [h4]; decide) rows]
      ring
  · rw [mkRow_visits, mkRow_visits]
    exact visitsCount_append_mem hk hv

/-- Witness for C6: the second line item of visit V1 (a tablet of 50)
raises the total by 50 and leaves the visit count unchanged. -/
theorem c6_line_item_witness :
    (mkRow ([rowC6a] ++ [rowC6b]) keyA).total = (mkRow [rowC6a] keyA).total + normAmount rowC6b ∧
    (mkRow ([rowC6a] ++ [rowC6b]) keyA).visits = (mkRow [rowC6a] keyA).visits :=
  ⟨(c6_line_item_aggregation [rowC6a] rowC6b keyA (by decide) (by decide)).2.1,
   (c6_line_item_aggregation [rowC6a] rowC6b keyA (by decide) (by decide)).2.2.1⟩

/-- Claim C4 is false on the code in its non-negativity part: a parseable
negative amount passes through normalization unchanged and reaches the
aggregation; here a single line of -50 produces a summary total of -50. -/
theorem c4_negative_amount_counterexample :
    normAmount rowNegAmt = -50 ∧
    (processOk [rowNegAmt]).map (fun s => s.total) = [-50] := by
  constructor
  · rfl
  · have hks : keysOf [rowNegAmt] = [keyA] := by decide
    simp only [processOk, hks, List.map_cons, List.map_nil]
    rw [mkRow_total,
      show bucketSum [rowNegAmt] keyA "Consultation" = [(-50 : ℚ)].sum from rfl,
      show bucketSum [rowNegAmt] keyA "Medicines" = List.sum ([] : List ℚ) from rfl,
      show bucketSum [rowNegAmt] keyA "Procedure" = List.sum ([] : List ℚ) from rfl,
      show bucketSum [rowNegAmt] keyA "Other" = List.sum ([] : List ℚ) from rfl]
    simp [List.sum_cons, List.sum_nil]

/-- Claim C4 (amended): an amount cell that fails numeric parsing coerces
to 0 - it contributes nothing to any bucket sum, and the row itself is not
dropped: if dated and carrying a doctor string it still yields its summary
row (here with total 0).  Parseable amounts, including negative ones, are
preserved. -/
theorem c4_unparseable_amount_zero (r : RawRow) (h : r.amountParsed = none) :
    normAmount r = 0 ∧
    (∀ (rows : List RawRow) (k : Key) (b : String),
      bucketSum (r :: rows) k b = bucketSum rows k b) ∧
    (∀ (d : String) (ym : YM), r.docCell = some d → r.dateParsed = some ym →
      ∃ s ∈ processOk [r], s.docName = d ∧ s.total = 0) := by
  have hz : normAmount r = 0 := by simp [normAmount, h]
  have hcons : ∀ (rows : List RawRow) (k : Key) (b : String),
      bucketSum (r :: rows) k b = bucketSum rows k b := by
    intro rows k b
    by_cases hp : (keyOf r = some k ∧ categorize_group r.groupCell = b)
    · simp [bucketSum, List.filter_cons, hp, hz]
    · simp [bucketSum, List.filter_cons, hp]
  refine ⟨hz, hcons, ?_⟩
  intro d ym hd hym
  refine ⟨mkRow [r] ⟨d, ym.year, ym.month⟩,
    mem_processOk_of_row (List.mem_singleton.mpr rfl) hd hym, rfl, ?_⟩
  have h0 : ∀ b : String, bucketSum [r] ⟨d, ym.year, ym.month⟩ b = 0 :=
    fun b => (hcons [] ⟨d, ym.year, ym.month⟩ b).trans rfl
  rw [mkRow_total, h0 "Consultation", h0 "Medicines", h0 "Procedure", h0 "Other"]
  norm_num

/-- Witness for the amended C4 at a row whose amount cell is unparseable:
it coerces to 0 and the row still yields its summary row. -/
theorem c4_unparseable_amount_witness :
    normAmount rowNoAmt = 0 ∧
    (∃ s ∈ processOk [rowNoAmt], s.docName = "Dr A" ∧ s.total = 0) :=
  ⟨(c4_unparseable_amount_zero rowNoAmt rfl).1,
   (c4_unparseable_amount_zero rowNoAmt rfl).2.2 "Dr A" ⟨2024, 1⟩ rfl rfl⟩

/-- Claim C8: when schema resolution leaves at least one role unbound, the
Process handler mutates neither the in-memory nor the durable center slot
(the store is returned unchanged), and the surfaced error is the list of
missing role labels, which contains the label of every unresolved role. -/
theorem c8_failed_ingest_preserves_store (st : CenterStore) (center : String)
    (cols : List String) (rows : List RawRow)
    (h : missingRoles (cols.map normalizeName) ≠ []) :
    (processClick st center cols rows).1 = st ∧
    (processClick st center cols rows).2 = some (missingRoles (cols.map normalizeName)) ∧
    (∀ p ∈ roleAliases, find_col (cols.map normalizeName) p.2 = none →
      p.1 ∈ missingRoles (cols.map normalizeName)) := by
  have hproc : processFile cols rows
      = Except.error (missingRoles (cols.map normalizeName)) := by
    simp only [processFile]
    rw [if_neg (by simpa [List.isEmpty_iff] using h)]
  refine ⟨?_, ?_, ?_⟩
  · simp [processClick, hproc]
  · simp [processClick, hproc]
  · intro p hp hfind
    exact List.mem_map_of_mem _ (List.mem_filter.mpr ⟨hp, by simp [hfind]⟩)

/-- Witness for C8: on a table with a single unrelated column every role is
unresolved, and a Process attempt on the empty store leaves it empty. -/
theorem c8_failed_ingest_witness :
    (processClick st0 "easyhealth" ["Foo"] []).1 = st0 ∧
    (processClick st0 "easyhealth" ["Foo"] []).2
      = some ["VisitNo", "VisitDate", "DocName", "Item Group", "Amount (Net/ActivityIns)"] :=
  ⟨(c8_failed_ingest_preserves_store st0 "easyhealth" ["Foo"] [] (by decide)).1,
   by
    rw [(c8_failed_ingest_preserves_store st0 "easyhealth" ["Foo"] [] (by decide)).2.1]
    decide⟩
